import Mathlib

/-!
Verification of the `ably-auth` token issuance service
(`src/simple-auth-server.ts`), a single-endpoint HTTP handler that
resolves a user identity from a request, derives a capability map, and
forwards a token request to an external issuing authority.

Modelling conventions (shallow embedding):
* JavaScript strings are modelled as `List Char`; `jstr` converts a Lean
  string literal to this representation.
* Node's `querystring.parse` and request-body parsing are external
  builtins; their outputs relevant to the handler (the `clientId`
  query/body fields) appear as fields of the embedded `Request`.
* JavaScript truthiness of an optional string (`undefined` and `""` are
  falsy) is modelled by `truthy`.
* The external issuing authority (`ably.auth.requestToken`) is a
  parameter of the handler: a function from a token request to either a
  serialized token-details body or a failure message.  The handler
  result carries the number of issuance calls made, so that
  "no retry" properties are expressible.
-/

/-- Convert a Lean string literal to the `List Char` representation of a
JavaScript string. -/
def jstr (s : String) : List Char := s.data

/-- JavaScript regular-expression `\s` character class (the whitespace
characters matched by `/\s+/` in `userName.replace(/\s+/g, '_')`). -/
def isJsWs (c : Char) : Bool :=
  let n := c.toNat
  (0x09 ≤ n && n ≤ 0x0D) || n = 0x20 || n = 0xA0 || n = 0x1680 ||
  (0x2000 ≤ n && n ≤ 0x200A) || n = 0x2028 || n = 0x2029 ||
  n = 0x202F || n = 0x205F || n = 0x3000 || n = 0xFEFF

/-- Auxiliary scanner for `collapseWs`: the flag records whether the
previous character was whitespace (i.e. we are inside a run that has
already emitted its underscore). -/
def collapseWsAux : Bool → List Char → List Char
  | _, [] => []
  | prevWs, c :: cs =>
    if isJsWs c then
      if prevWs then collapseWsAux true cs
      else '_' :: collapseWsAux true cs
    else c :: collapseWsAux false cs

/-- JavaScript `s.replace(/\s+/g, '_')`: every maximal run of whitespace
characters is replaced by a single underscore. -/
def collapseWs (s : List Char) : List Char := collapseWsAux false s

/-- JavaScript `s.split('.')` for the single-character separator `'.'`:
the segments between dots, empty segments preserved.  The result is
always non-empty. -/
def splitOnDot : List Char → List (List Char)
  | [] => [[]]
  | c :: cs =>
    if c = '.' then [] :: splitOnDot cs
    else (c :: (splitOnDot cs).headI) :: (splitOnDot cs).tail

/-- JavaScript `parts.join('.')`. -/
def joinDot : List (List Char) → List Char
  | [] => []
  | [s] => s
  | s :: rest => s ++ '.' :: joinDot rest

/-- JavaScript `s.startsWith(pre)`. -/
def jsStartsWith : List Char → List Char → Bool
  | [], _ => true
  | _, [] => false
  | c :: p, d :: s => c = d && jsStartsWith p s

/-- JavaScript `hay.includes(needle)`: substring containment. -/
def hasSub (needle : List Char) : List Char → Bool
  | [] => needle.isEmpty
  | c :: t => jsStartsWith needle (c :: t) || hasSub needle t

/-- Truthiness of an optional JavaScript string: `undefined` and the
empty string are falsy. -/
def truthy : Option (List Char) → Bool
  | some s => !s.isEmpty
  | none => false

/-- Lower-case hexadecimal digit, as produced by `JSON.stringify` for
control-character escapes. -/
def hexDigit (n : Nat) : Char :=
  if n < 10 then Char.ofNat ('0'.toNat + n) else Char.ofNat ('a'.toNat + n - 10)

/-- Escape of one character inside a JSON string literal, following
`JSON.stringify`. -/
def jsonEscChar (c : Char) : List Char :=
  if c = '"' then ['\\', '"']
  else if c = '\\' then ['\\', '\\']
  else if c = '\x08' then ['\\', 'b']
  else if c = '\x09' then ['\\', 't']
  else if c = '\x0a' then ['\\', 'n']
  else if c = '\x0c' then ['\\', 'f']
  else if c = '\x0d' then ['\\', 'r']
  else if c.toNat < 0x20 then
    ['\\', 'u', '0', '0', hexDigit (c.toNat / 16), hexDigit (c.toNat % 16)]
  else [c]

/-- JSON serialization of a string value (quotes plus escapes). -/
def jsonStr (s : List Char) : List Char :=
  '"' :: (s.map jsonEscChar).flatten ++ ['"']

/-- Join a list of already-serialized JSON fragments with commas. -/
def joinComma : List (List Char) → List Char
  | [] => []
  | [s] => s
  | s :: rest => s ++ ',' :: joinComma rest

/-- `JSON.stringify` of a `TokenCapabilities` object: an object literal
whose keys appear in insertion order, each mapped to an array of
strings.  No whitespace is emitted, as with `JSON.stringify`'s default
formatting. -/
def stringifyCaps (caps : List (List Char × List (List Char))) : List Char :=
  '\x7b' :: joinComma (caps.map fun kv =>
    jsonStr kv.1 ++ ':' :: '[' :: joinComma (kv.2.map jsonStr) ++ [']']) ++ ['\x7d']

/-- `JSON.stringify` of an `ErrorResponse` with no `details` field. -/
def jsonError (e : List Char) : List Char :=
  '\x7b' :: jsonStr (jstr "error") ++ ':' :: jsonStr e ++ ['\x7d']

/-- `JSON.stringify` of an `ErrorResponse` with a `details` field. -/
def jsonErrorDetails (e d : List Char) : List Char :=
  '\x7b' :: jsonStr (jstr "error") ++ ':' :: jsonStr e ++
    ',' :: jsonStr (jstr "details") ++ ':' :: jsonStr d ++ ['\x7d']

/-- The inbound HTTP request, as seen by the handler in
`simple-auth-server.ts`.  `xUserId` and `xUserName` are the
`x-user-id` / `x-user-name` headers; `queryClientId` and `bodyClientId`
are the `clientId` fields extracted by the external `querystring`
builtin from the URL's query string and from the request body. -/
structure Request where
  method : List Char
  url : List Char
  xUserId : Option (List Char)
  xUserName : Option (List Char)
  queryClientId : Option (List Char)
  bodyClientId : Option (List Char)

/-- The token request parameters built at lines 106-110 of
`simple-auth-server.ts`. -/
structure TokenRequest where
  clientId : List Char
  capability : List Char
  ttl : Nat
deriving DecidableEq

/-- ClientId derivation of the header path (line 71):
`` `${userName.replace(/\s+/g, '_')}.${userId}` ``. -/
def deriveClientId (userId userName : List Char) : List Char :=
  collapseWs userName ++ '.' :: userId

/-- ClientId parsing of the SDK path (lines 82-84): split on `'.'`,
`pop()` the last segment as `userId`, rejoin the rest with `'.'` as
`userName`.  Returns `(userId, userName)`. -/
def parseSdkClientId (s : List Char) : List Char × List Char :=
  (((splitOnDot s).getLast?).getD [], joinDot (splitOnDot s).dropLast)

/-- The identity variables after the resolution block
(lines 62-88 of `simple-auth-server.ts`): `userId` and `clientId` may
still be `undefined` (`none`), exactly as in the source. -/
structure Resolved where
  userId : Option (List Char)
  userName : List Char
  clientId : Option (List Char)
deriving DecidableEq

/-- Identity resolution, lines 62-88: the header path is taken when the
`x-user-id` header is truthy; otherwise the combined SDK `clientId`
from the query string or body (`queryParams.clientId || body.clientId`)
is parsed when truthy; otherwise nothing is resolved. -/
def resolveIdentity (req : Request) : Resolved :=
  if truthy req.xUserId then
    let userId := req.xUserId.getD []
    let userName :=
      if truthy req.xUserName then req.xUserName.getD [] else jstr "Unknown"
    ⟨some userId, userName, some (deriveClientId userId userName)⟩
  else
    let sdkClientId :=
      if truthy req.queryClientId then req.queryClientId else req.bodyClientId
    if truthy sdkClientId then
      let s := sdkClientId.getD []
      let p := parseSdkClientId s
      ⟨some p.1, p.2, some s⟩
    else
      ⟨none, jstr "Unknown", none⟩

/-- Capability derivation, lines 100-103 of `simple-auth-server.ts`
(insertion order preserved, as for a JavaScript object literal). -/
def capabilities (userId : List Char) : List (List Char × List (List Char)) :=
  [ (jstr "roomslist:" ++ userId, [jstr "publish", jstr "subscribe", jstr "history"]),
    (jstr "presence", [jstr "publish", jstr "subscribe", jstr "presence"]) ]

/-- Association-list lookup on a capability map (first matching key). -/
def capLookup (k : List Char) : List (List Char × List (List Char)) → Option (List (List Char))
  | [] => none
  | kv :: rest => if k = kv.1 then some kv.2 else capLookup k rest

/-- Outcome of the `/auth` body up to the point where the external
authority would be called: either the 400 response of lines 90-95, or
the token request of lines 106-110 about to be issued. -/
inductive AuthOutcome where
  | badRequest (body : List Char)
  | issue (tr : TokenRequest)
deriving DecidableEq

/-- Lines 90-110 of `simple-auth-server.ts`: the identity guard
(`if (!userId || !clientId)`) and the construction of the token
request. -/
def handleAuth (req : Request) : AuthOutcome :=
  if !truthy (resolveIdentity req).userId || !truthy (resolveIdentity req).clientId then
    .badRequest (jsonError (jstr "Could not determine user identity"))
  else
    .issue ⟨(resolveIdentity req).clientId.getD [],
            stringifyCaps (capabilities ((resolveIdentity req).userId.getD [])),
            3600000⟩

/-- HTTP response sent by the handler.  `json status body` models
`res.writeHead(status, ...); res.end(body)`; `noContent` models the
bodyless 204 preflight reply. -/
inductive Response where
  | noContent
  | json (status : Nat) (body : List Char)
deriving DecidableEq

/-- The `/auth` flow (lines 61-129): run identity resolution and the
guard; on a token request, call the external authority once and either
return its serialized token details with 200 or convert the caught
failure into the 500 `ErrorResponse` of lines 121-128.  The second
component counts calls made to the issuing authority. -/
def authFlow (req : Request)
    (requestToken : TokenRequest → Except (List Char) (List Char)) :
    Response × Nat :=
  match handleAuth req with
  | .badRequest body => (.json 400 body, 0)
  | .issue tr =>
    match requestToken tr with
    | .ok tokenDetails => (.json 200 tokenDetails, 1)
    | .error msg =>
      (.json 500 (jsonErrorDetails (jstr "Failed to create token") msg), 1)

/-- The whole request handler (lines 38-130): OPTIONS preflight first
(lines 47-51), then the `/auth` route check by URL prefix
(lines 53-59), then the `/auth` flow. -/
def handle (req : Request)
    (requestToken : TokenRequest → Except (List Char) (List Char)) :
    Response × Nat :=
  if req.method = jstr "OPTIONS" then (.noContent, 0)
  else if !(jsStartsWith (jstr "/auth") req.url) then
    (.json 404 (jsonError (jstr "Not Found")), 0)
  else
    match handleAuth req with
    | .badRequest body => (.json 400 body, 0)
    | .issue tr =>
      match requestToken tr with
      | .ok tokenDetails => (.json 200 tokenDetails, 1)
      | .error msg =>
        (.json 500 (jsonErrorDetails (jstr "Failed to create token") msg), 1)

/-- Modelled from the spec: the canonical rich capability policy of the
`startAuthServer` variant (`auth.ts`, imported by the test suite but
absent from the sources).  The entries follow the table of spec
section 4.2, which the test
"should generate token with comprehensive user-specific capabilities"
states entry by entry. -/
def richCapabilities (userId : List Char) : List (List Char × List (List Char)) :=
  [ (jstr "roomslist:" ++ userId,
      [jstr "publish", jstr "subscribe", jstr "history",
       jstr "object-subscribe", jstr "object-publish"]),
    (jstr "profile:" ++ userId, [jstr "publish", jstr "subscribe", jstr "history"]),
    (jstr "profile:*", [jstr "subscribe"]),
    (userId ++ jstr ":*",
      [jstr "publish", jstr "subscribe", jstr "history", jstr "presence"]),
    (jstr "*:" ++ userId,
      [jstr "publish", jstr "subscribe", jstr "history", jstr "presence"]),
    (jstr "presence", [jstr "publish", jstr "subscribe", jstr "presence"]),
    (jstr "*", [jstr "subscribe"]) ]

/-- Modelled from the spec: ClientId resolution of the `startAuthServer`
variant (`auth.ts`, absent from the sources) for the header path.  Per
spec section 4.1 the display name comes from the companion
`x-user-full-name` header or defaults to the sentinel `"Unknown_User"`
in this variant (test "should handle missing full name gracefully");
whitespace runs are collapsed to underscores as in the data model of
spec section 3. -/
def richResolveClientId (xUserId xUserFullName : Option (List Char)) :
    Option (List Char) :=
  if truthy xUserId then
    let userId := xUserId.getD []
    let userName :=
      if truthy xUserFullName then xUserFullName.getD [] else jstr "Unknown_User"
    some (deriveClientId userId userName)
  else none

/-! ### Helper lemmas -/

/-- Characters produced by the whitespace-collapsing scanner are never
whitespace. -/
theorem mem_collapseWsAux_not_ws {c : Char} :
    ∀ (b : Bool) (s : List Char), c ∈ collapseWsAux b s → isJsWs c = false := by
  intro b s
  induction s generalizing b with
  | nil => intro h; simp [collapseWsAux] at h
  | cons d t ih =>
    intro h
    cases hd : isJsWs d with
    | true =>
      cases b with
      | true =>
        simp only [collapseWsAux, hd] at h
        simp only [if_true] at h
        exact ih true h
      | false =>
        simp [collapseWsAux, hd] at h
        rcases h with h | h
        · subst h; decide
        · exact ih true h
    | false =>
      simp [collapseWsAux, hd] at h
      rcases h with h | h
      · subst h; exact hd
      · exact ih false h

/-- Characters of a collapsed string are never whitespace. -/
theorem mem_collapseWs_not_ws {c : Char} {s : List Char}
    (h : c ∈ collapseWs s) : isJsWs c = false :=
  mem_collapseWsAux_not_ws false s h

/-- `splitOnDot` never returns the empty list of segments. -/
theorem splitOnDot_ne_nil (s : List Char) : splitOnDot s ≠ [] := by
  cases s with
  | nil => simp [splitOnDot]
  | cons c cs => by_cases hc : c = '.' <;> simp [splitOnDot, hc]

/-- Splitting a dot-free string yields a single segment. -/
theorem splitOnDot_no_dot (s : List Char) (h : '.' ∉ s) : splitOnDot s = [s] := by
  induction s with
  | nil => rfl
  | cons c cs ih =>
    have hc : c ≠ '.' := fun hc => h (hc ▸ List.mem_cons_self c cs)
    have hcs : '.' ∉ cs := fun hm => h (List.mem_cons_of_mem c hm)
    simp [splitOnDot, ih hcs, hc]

/-- Splitting around an explicit separator whose right part is
dot-free appends one segment. -/
theorem splitOnDot_append (xs ys : List Char) (h : '.' ∉ ys) :
    splitOnDot (xs ++ '.' :: ys) = splitOnDot xs ++ [ys] := by
  induction xs with
  | nil =>
    simp [splitOnDot, splitOnDot_no_dot ys h]
  | cons c cs ih =>
    cases hsp : splitOnDot cs with
    | nil => exact absurd hsp (splitOnDot_ne_nil cs)
    | cons a l =>
      by_cases hc : c = '.' <;>
        simp [splitOnDot, List.cons_append, ih, hsp, hc]

/-- Rejoining the segments of a split recovers the original string. -/
theorem joinDot_splitOnDot (s : List Char) : joinDot (splitOnDot s) = s := by
  induction s with
  | nil => rfl
  | cons c cs ih =>
    cases hsp : splitOnDot cs with
    | nil => exact absurd hsp (splitOnDot_ne_nil cs)
    | cons a l =>
      rw [hsp] at ih
      by_cases hc : c = '.'
      · subst hc
        simpa [splitOnDot, hsp, joinDot] using ih
      · simp only [splitOnDot, if_neg hc, hsp, List.headI, List.tail]
        cases l with
        | nil => simpa [joinDot] using ih
        | cons b m => simpa [joinDot] using congrArg (c :: ·) ih

/-! ### Claim theorems -/

/-- C5: for every non-empty userId, the derived capability map contains
at least the keys `roomslist:<userId>` and `presence`, and the operation
set of `roomslist:<userId>` includes both `publish` and `subscribe`. -/
theorem C5_capability_map_minimum (u : List Char) (hu : u ≠ []) :
    (∃ ops, capLookup (jstr "roomslist:" ++ u) (capabilities u) = some ops ∧
      jstr "publish" ∈ ops ∧ jstr "subscribe" ∈ ops) ∧
    ∃ ops, capLookup (jstr "presence") (capabilities u) = some ops := by
  have hne : jstr "presence" ≠ jstr "roomslist:" ++ u := by
    have h1 : jstr "roomslist:" ++ u = 'r' :: (jstr "oomslist:" ++ u) := rfl
    have h2 : jstr "presence" = 'p' :: jstr "resence" := rfl
    rw [h1, h2]
    intro h
    injection h with hc _
    exact absurd hc (by decide)
  constructor
  · refine ⟨[jstr "publish", jstr "subscribe", jstr "history"], ?_, ?_, ?_⟩
    · simp [capabilities, capLookup]
    · simp
    · simp
  · refine ⟨[jstr "publish", jstr "subscribe", jstr "presence"], ?_⟩
    simp only [capabilities, capLookup]
    rw [if_neg hne]
    simp

/-- Witness for C5 at the concrete userId `u1`. -/
theorem C5_capability_map_minimum_witness :
    (∃ ops, capLookup (jstr "roomslist:" ++ jstr "u1") (capabilities (jstr "u1")) = some ops ∧
      jstr "publish" ∈ ops ∧ jstr "subscribe" ∈ ops) ∧
    ∃ ops, capLookup (jstr "presence") (capabilities (jstr "u1")) = some ops :=
  C5_capability_map_minimum (jstr "u1") (by decide)

/-- C6: capability derivation is a pure function of the userId alone:
any two requests that resolve to the same userId (whatever their
display names) are issued token requests with equal capability
serializations. -/
theorem C6_capabilities_depend_only_on_userId
    (r1 r2 : Request) (tr1 tr2 : TokenRequest)
    (h1 : handleAuth r1 = .issue tr1) (h2 : handleAuth r2 = .issue tr2)
    (hu : (resolveIdentity r1).userId = (resolveIdentity r2).userId) :
    tr1.capability = tr2.capability := by
  unfold handleAuth at h1 h2
  split at h1
  · exact absurd h1 (by simp)
  · split at h2
    · exact absurd h2 (by simp)
    · injection h1 with h1
      injection h2 with h2
      rw [← h1, ← h2]
      simp [hu]

/-- Witness for C6: two concrete header requests with the same user id
and different display names resolve to token requests with equal
capability serializations. -/
theorem C6_capabilities_depend_only_on_userId_witness :
    (TokenRequest.mk (jstr "Jane_Doe.u1")
        (stringifyCaps (capabilities (jstr "u1"))) 3600000).capability =
    (TokenRequest.mk (jstr "Bob.u1")
        (stringifyCaps (capabilities (jstr "u1"))) 3600000).capability :=
  C6_capabilities_depend_only_on_userId
    ⟨jstr "GET", jstr "/auth", some (jstr "u1"), some (jstr "Jane Doe"), none, none⟩
    ⟨jstr "GET", jstr "/auth", some (jstr "u1"), some (jstr "Bob"), none, none⟩
    _ _ (by decide) (by decide) (by decide)

/-- C7: for every successfully resolved identity, the token request
handed to the external issuing authority carries the resolved ClientId,
the JSON serialization of the derived capability map, and a ttl of
exactly 3600000 milliseconds. -/
theorem C7_token_request_fields (req : Request)
    (hu : truthy (resolveIdentity req).userId = true)
    (hc : truthy (resolveIdentity req).clientId = true) :
    handleAuth req = .issue
      ⟨(resolveIdentity req).clientId.getD [],
       stringifyCaps (capabilities ((resolveIdentity req).userId.getD [])),
       3600000⟩ := by
  unfold handleAuth
  rw [hu, hc]
  simp

/-- Witness for C7 at a concrete header request. -/
theorem C7_token_request_fields_witness :
    handleAuth ⟨jstr "GET", jstr "/auth", some (jstr "u1"), some (jstr "Jane Doe"),
        none, none⟩ = .issue
      ⟨(resolveIdentity ⟨jstr "GET", jstr "/auth", some (jstr "u1"),
          some (jstr "Jane Doe"), none, none⟩).clientId.getD [],
       stringifyCaps (capabilities ((resolveIdentity ⟨jstr "GET", jstr "/auth",
          some (jstr "u1"), some (jstr "Jane Doe"), none, none⟩).userId.getD [])),
       3600000⟩ :=
  C7_token_request_fields
    ⟨jstr "GET", jstr "/auth", some (jstr "u1"), some (jstr "Jane Doe"), none, none⟩
    (by decide) (by decide)

/-- C2 fails as stated: a non-empty userId that itself contains
whitespace (here `"a b"`, deliverable through the `x-user-id` header)
yields a derived ClientId `"John.a b"` that contains a space, because
line 71 sanitizes only the display name. -/
theorem C2_counterexample :
    ¬ (∀ userId userName : List Char, userId ≠ [] →
        ∀ c ∈ deriveClientId userId userName, isJsWs c = false) := by
  intro h
  exact absurd (h (jstr "a b") (jstr "John") (by decide) ' ' (by decide)) (by decide)

/-- C2 amended: for every non-empty userId that contains no whitespace
character and every displayName (including ones containing whitespace),
the derived ClientId contains no whitespace character. -/
theorem C2_clientId_no_whitespace (userId userName : List Char)
    (hu : userId ≠ []) (hws : ∀ c ∈ userId, isJsWs c = false) :
    ∀ c ∈ deriveClientId userId userName, isJsWs c = false := by
  intro c hc
  unfold deriveClientId at hc
  rcases List.mem_append.mp hc with h | h
  · exact mem_collapseWs_not_ws h
  · rcases List.mem_cons.mp h with h | h
    · subst h; decide
    · exact hws c h

/-- Witness for the amended C2 at a whitespace-containing display
name: the concrete derived ClientId checks whitespace-free. -/
theorem C2_clientId_no_whitespace_witness :
    (deriveClientId (jstr "test_user_123") (jstr "John Doe Smith")).all
      (fun c => !isJsWs c) = true := by
  rw [List.all_eq_true]
  intro c hc
  have h := C2_clientId_no_whitespace (jstr "test_user_123") (jstr "John Doe Smith")
    (by decide) (by decide) c hc
  simp [h]

/-- C3: ClientId derivation is deterministic, and the combined-id
parsing path of the SDK branch recovers the userId as the segment after
the last dot and the display name as the remaining segments rejoined
with dots, even when the name part itself contains dots. -/
theorem C3_deterministic_and_roundtrip :
    (∀ u1 n1 u2 n2 : List Char, u1 = u2 → n1 = n2 →
        deriveClientId u1 n1 = deriveClientId u2 n2) ∧
    (∀ name userId : List Char, '.' ∉ userId →
        parseSdkClientId (name ++ '.' :: userId) = (userId, name)) := by
  constructor
  · intro u1 n1 u2 n2 hu hn
    rw [hu, hn]
  · intro name userId h
    unfold parseSdkClientId
    rw [splitOnDot_append name userId h, List.getLast?_concat,
      List.dropLast_concat, joinDot_splitOnDot]
    rfl

/-- Witness for C3: determinism and round-trip at a dotted display
name. -/
theorem C3_deterministic_and_roundtrip_witness :
    deriveClientId (jstr "u1") (jstr "Jane") = deriveClientId (jstr "u1") (jstr "Jane") ∧
    parseSdkClientId (jstr "John.Doe" ++ '.' :: jstr "u1") = (jstr "u1", jstr "John.Doe") :=
  ⟨C3_deterministic_and_roundtrip.1 (jstr "u1") (jstr "Jane") (jstr "u1") (jstr "Jane")
      rfl rfl,
   C3_deterministic_and_roundtrip.2 (jstr "John.Doe") (jstr "u1") (by decide)⟩

/-- C8: an `/auth` request with no identifying information of any kind
(no truthy `x-user-id` header and no truthy `clientId` in query string
or body) is answered 400 with the missing-identity JSON error, whose
error text mentions "identity", and no call is made to the issuing
authority. -/
theorem C8_missing_identity_400 (req : Request)
    (requestToken : TokenRequest → Except (List Char) (List Char))
    (hm : req.method ≠ jstr "OPTIONS")
    (hurl : jsStartsWith (jstr "/auth") req.url = true)
    (hid : truthy req.xUserId = false)
    (hq : truthy req.queryClientId = false)
    (hb : truthy req.bodyClientId = false) :
    handle req requestToken =
      (.json 400 (jsonError (jstr "Could not determine user identity")), 0) ∧
    hasSub (jstr "identity") (jsonError (jstr "Could not determine user identity")) = true := by
  refine ⟨?_, by decide⟩
  have hres : resolveIdentity req = ⟨none, jstr "Unknown", none⟩ := by
    unfold resolveIdentity
    simp [hid, hq, hb]
  unfold handle
  rw [if_neg hm]
  simp only [hurl, Bool.not_true, Bool.false_eq_true, if_false]
  unfold handleAuth
  rw [hres]
  simp [truthy]

/-- Witness for C8 at a concrete GET request with empty identifying
fields. -/
theorem C8_missing_identity_400_witness :
    handle ⟨jstr "GET", jstr "/auth", none, some (jstr "Jane"), none, some []⟩
        (fun _ => .ok (jstr "T")) =
      (.json 400 (jsonError (jstr "Could not determine user identity")), 0) ∧
    hasSub (jstr "identity") (jsonError (jstr "Could not determine user identity")) = true :=
  C8_missing_identity_400
    ⟨jstr "GET", jstr "/auth", none, some (jstr "Jane"), none, some []⟩
    (fun _ => .ok (jstr "T"))
    (by decide) (by decide) (by decide) (by decide) (by decide)

/-- C9: when the external token issuance fails, the caught failure is
converted into a 500 JSON response whose `error` field is the generic
message and whose `details` field carries exactly the failure's
message; the authority is called exactly once on that request, and on
no request is it ever called more than once (no retries). -/
theorem C9_issuance_failure_500 (req : Request) (msg : List Char)
    (hm : req.method ≠ jstr "OPTIONS")
    (hurl : jsStartsWith (jstr "/auth") req.url = true)
    (hu : truthy (resolveIdentity req).userId = true)
    (hc : truthy (resolveIdentity req).clientId = true) :
    handle req (fun _ => .error msg) =
      (.json 500 (jsonErrorDetails (jstr "Failed to create token") msg), 1) ∧
    ∀ (r : Request) (requestToken : TokenRequest → Except (List Char) (List Char)),
      (handle r requestToken).2 ≤ 1 := by
  constructor
  · unfold handle
    rw [if_neg hm]
    simp only [hurl, Bool.not_true, Bool.false_eq_true, if_false]
    unfold handleAuth
    rw [hu, hc]
    simp
  · intro r requestToken
    unfold handle
    split
    · exact Nat.zero_le 1
    · split
      · exact Nat.zero_le 1
      · split
        · exact Nat.zero_le 1
        · split <;> exact Nat.le_refl 1

/-- Witness for C9 at a concrete request whose issuance fails with the
message "boom". -/
theorem C9_issuance_failure_500_witness :
    handle ⟨jstr "POST", jstr "/auth", some (jstr "u1"), some (jstr "Jane"), none, none⟩
        (fun _ => .error (jstr "boom")) =
      (.json 500 (jsonErrorDetails (jstr "Failed to create token") (jstr "boom")), 1) ∧
    ∀ (r : Request) (requestToken : TokenRequest → Except (List Char) (List Char)),
      (handle r requestToken).2 ≤ 1 :=
  C9_issuance_failure_500
    ⟨jstr "POST", jstr "/auth", some (jstr "u1"), some (jstr "Jane"), none, none⟩
    (jstr "boom") (by decide) (by decide) (by decide) (by decide)

/-- C10: routing is prefix-based and method-agnostic: every non-OPTIONS
request whose URL does not start with `/auth` is answered 404 with the
exact body `\x7b"error":"Not Found"\x7d`, and every non-OPTIONS request
whose URL merely begins with `/auth` (whatever the method) is handed to
the full identity-resolution and token-issuance flow `authFlow`. -/
theorem C10_routing (req : Request)
    (requestToken : TokenRequest → Except (List Char) (List Char))
    (hm : req.method ≠ jstr "OPTIONS") :
    (jsStartsWith (jstr "/auth") req.url = false →
      handle req requestToken =
        (.json 404 (jstr "\x7b\"error\":\"Not Found\"\x7d"), 0)) ∧
    (jsStartsWith (jstr "/auth") req.url = true →
      handle req requestToken = authFlow req requestToken) := by
  constructor
  · intro h404
    unfold handle
    rw [if_neg hm]
    simp only [h404, Bool.not_false, if_true]
    refine congrArg (fun b => (Response.json 404 b, 0)) ?_
    decide
  · intro hpre
    unfold handle authFlow
    rw [if_neg hm]
    simp [hpre]

/-- Witness for C10: a DELETE to `/nope` gets the 404 body, and a PUT to
`/authXYZ` is processed by the full flow. -/
theorem C10_routing_witness :
    handle ⟨jstr "DELETE", jstr "/nope", some (jstr "u1"), none, none, none⟩
        (fun _ => .ok (jstr "T")) =
      (.json 404 (jstr "\x7b\"error\":\"Not Found\"\x7d"), 0) ∧
    handle ⟨jstr "PUT", jstr "/authXYZ", some (jstr "u1"), none, none, none⟩
        (fun _ => .ok (jstr "T")) =
      authFlow ⟨jstr "PUT", jstr "/authXYZ", some (jstr "u1"), none, none, none⟩
        (fun _ => .ok (jstr "T")) :=
  ⟨(C10_routing ⟨jstr "DELETE", jstr "/nope", some (jstr "u1"), none, none, none⟩
      (fun _ => .ok (jstr "T")) (by decide)).1 (by decide),
   (C10_routing ⟨jstr "PUT", jstr "/authXYZ", some (jstr "u1"), none, none, none⟩
      (fun _ => .ok (jstr "T")) (by decide)).2 (by decide)⟩

/-- C1: for every non-empty userId `u`, the rich canonical capability
map contains the seven entries of the policy table: full access
(including object operations) to `roomslist:u`, full profile access to
`profile:u`, read access to `profile:*`, bidirectional conversation
rights on `u:*` and `*:u`, the shared `presence` channel, and read-only
fallback on `*`. -/
theorem C1_rich_policy_entries (u : List Char) (hu : u ≠ []) :
    (jstr "roomslist:" ++ u,
      [jstr "publish", jstr "subscribe", jstr "history",
       jstr "object-subscribe", jstr "object-publish"]) ∈ richCapabilities u ∧
    (jstr "profile:" ++ u,
      [jstr "publish", jstr "subscribe", jstr "history"]) ∈ richCapabilities u ∧
    (jstr "profile:*", [jstr "subscribe"]) ∈ richCapabilities u ∧
    (u ++ jstr ":*",
      [jstr "publish", jstr "subscribe", jstr "history", jstr "presence"]) ∈
        richCapabilities u ∧
    (jstr "*:" ++ u,
      [jstr "publish", jstr "subscribe", jstr "history", jstr "presence"]) ∈
        richCapabilities u ∧
    (jstr "presence", [jstr "publish", jstr "subscribe", jstr "presence"]) ∈
      richCapabilities u ∧
    (jstr "*", [jstr "subscribe"]) ∈ richCapabilities u := by
  refine ⟨?_, ?_, ?_, ?_, ?_, ?_, ?_⟩ <;> simp [richCapabilities]

/-- Witness for C1 at the concrete userId `test_user_123`. -/
theorem C1_rich_policy_entries_witness :
    (jstr "roomslist:" ++ jstr "test_user_123",
      [jstr "publish", jstr "subscribe", jstr "history",
       jstr "object-subscribe", jstr "object-publish"]) ∈
      richCapabilities (jstr "test_user_123") ∧
    (jstr "profile:" ++ jstr "test_user_123",
      [jstr "publish", jstr "subscribe", jstr "history"]) ∈
      richCapabilities (jstr "test_user_123") ∧
    (jstr "profile:*", [jstr "subscribe"]) ∈ richCapabilities (jstr "test_user_123") ∧
    (jstr "test_user_123" ++ jstr ":*",
      [jstr "publish", jstr "subscribe", jstr "history", jstr "presence"]) ∈
        richCapabilities (jstr "test_user_123") ∧
    (jstr "*:" ++ jstr "test_user_123",
      [jstr "publish", jstr "subscribe", jstr "history", jstr "presence"]) ∈
        richCapabilities (jstr "test_user_123") ∧
    (jstr "presence", [jstr "publish", jstr "subscribe", jstr "presence"]) ∈
      richCapabilities (jstr "test_user_123") ∧
    (jstr "*", [jstr "subscribe"]) ∈ richCapabilities (jstr "test_user_123") :=
  C1_rich_policy_entries (jstr "test_user_123") (by decide)

/-- C4: a request carrying a non-empty user-id header and no
display-name header resolves to a ClientId built from the non-empty
default display name; in the canonical variant the default sentinel is
`Unknown_User`, so userId `test_user_123` yields exactly
`Unknown_User.test_user_123`. -/
theorem C4_default_display_name (u : List Char) (hu : u ≠ []) :
    richResolveClientId (some u) none = some (jstr "Unknown_User" ++ '.' :: u) ∧
    jstr "Unknown_User" ≠ [] ∧
    richResolveClientId (some (jstr "test_user_123")) none =
      some (jstr "Unknown_User.test_user_123") := by
  refine ⟨?_, by decide, by decide⟩
  unfold richResolveClientId
  have ht : truthy (some u) = true := by
    cases u with
    | nil => exact absurd rfl hu
    | cons c cs => rfl
  rw [ht]
  simp only [if_true, truthy, Option.getD_some]
  have hcw : collapseWs (jstr "Unknown_User") = jstr "Unknown_User" := by decide
  simp [deriveClientId, hcw]

/-- Witness for C4 at the concrete userId `test_user_123`. -/
theorem C4_default_display_name_witness :
    richResolveClientId (some (jstr "test_user_123")) none =
      some (jstr "Unknown_User" ++ '.' :: jstr "test_user_123") ∧
    jstr "Unknown_User" ≠ [] ∧
    richResolveClientId (some (jstr "test_user_123")) none =
      some (jstr "Unknown_User.test_user_123") :=
  C4_default_display_name (jstr "test_user_123") (by decide)
